import Mathlib

/-!
Shallow embedding of the WebSocket signaling relay of src/server.js:
the connection registry (the global connections Map), the message
router (the on-message handler), the call-state tracker
(trackCallState over the notifyOnClose closure array), and the
connection / close handlers. Definitions follow the source line by
line; machine-level concerns (TLS, the HTTP file server, logging) are
outside the claims and are not modelled.
-/

namespace SirRtc

/-- JavaScript values as produced by JSON.parse. Numbers are modelled
as integers (the claims only ever involve the number 0, and no
arithmetic is performed on payloads); object fields are an association
list in insertion order (JSON.parse yields unique keys). -/
inductive JVal where
  | null
  | bool (b : Bool)
  | num (n : Int)
  | str (s : String)
  | arr (xs : List JVal)
  | obj (fields : List (String × JVal))

/-- JavaScript truthiness of a parsed JSON value, as tested by the
guard on data.id. NaN cannot arise in the integer model, and parsed
JSON never contains undefined. -/
def truthy : JVal → Bool
  | .null => false
  | .bool b => b
  | .num n => n != 0
  | .str s => s != ""
  | .arr _ => true
  | .obj _ => true

/-- Strict equality as used by Array.indexOf: structural on
primitives. On objects and arrays the JS operator compares references,
which a value model cannot express; the router only ever stores string
ids in the notifyOnClose array and looks strings up in it, so the
object cases are unreachable there and their result is unobservable. -/
def strictEq : JVal → JVal → Bool
  | .null, .null => true
  | .bool a, .bool b => a == b
  | .num a, .num b => a == b
  | .str a, .str b => a == b
  | _, _ => false

/-- First binding for a key in an object's field list. -/
def objGet (fs : List (String × JVal)) (k : String) : Option JVal :=
  match fs with
  | [] => none
  | (k', v) :: rest => if k' = k then some v else objGet rest k

/-- Property read data.k on a value that is not null: objects yield
the field (none standing for undefined), primitives and arrays have no
such own property. A property read on null throws a TypeError; the one
place the router performs a read that can hit null is modelled
explicitly in onMessage. -/
def getProp : JVal → String → Option JVal
  | .obj fs, k => objGet fs k
  | _, _ => none

/-- Replace the binding of a key in place, or append a fresh one. -/
def objSet (fs : List (String × JVal)) (k : String) (v : JVal) : List (String × JVal) :=
  match fs with
  | [] => [(k, v)]
  | (k', v') :: rest => if k' = k then (k, v) :: rest else (k', v') :: objSet rest k v

/-- Property write data.k = v. The router only assigns to the id field
of an envelope that already passed the truthy-id check, hence an
object; on other values the sloppy-mode write is a silent no-op. -/
def setProp : JVal → String → JVal → JVal
  | .obj fs, k, v => .obj (objSet fs k v)
  | other, _, _ => other

/-- One registered connection: its notifyOnClose closure array (the
call-state subscriber list; a JS array, so duplicates and order are
observable) and the envelopes the server has written to this socket,
oldest first. -/
structure Conn where
  notifyOnClose : List JVal
  outbox : List JVal

/-- The global connections Map of server.js: key-value pairs in
insertion order; keys are unique because every set is guarded by a has
check. -/
structure ServerState where
  connections : List (String × Conn)

/-- Map.get with a string key: first matching binding. -/
def mget (m : List (String × Conn)) (k : String) : Option Conn :=
  match m with
  | [] => none
  | (k', c) :: rest => if k' = k then some c else mget rest k

/-- Map.has. -/
def mhas (m : List (String × Conn)) (k : String) : Bool :=
  (mget m k).isSome

/-- Map.set: replace the binding in place or append a fresh one. -/
def mset (m : List (String × Conn)) (k : String) (c : Conn) : List (String × Conn) :=
  match m with
  | [] => [(k, c)]
  | (k', c') :: rest => if k' = k then (k, c) :: rest else (k', c') :: mset rest k c

/-- Map.delete: remove the (unique) binding of the key, if present. -/
def mdel (m : List (String × Conn)) (k : String) : List (String × Conn) :=
  match m with
  | [] => []
  | (k', c') :: rest => if k' = k then rest else (k', c') :: mdel rest k

/-- Mutate the connection stored under a key, leaving the rest of the
map alone; a no-op when the key is absent. This is how the per-socket
closures (notifyOnClose, the socket itself) are reflected in the
explicit state. -/
def mupdate (m : List (String × Conn)) (k : String) (f : Conn → Conn) : List (String × Conn) :=
  match m with
  | [] => []
  | (k', c) :: rest => if k' = k then (k, f c) :: rest else (k', c) :: mupdate rest k f

/-- The indexOf / splice idiom of the bye case: delete the first
strictly-equal occurrence of a value from an array, a no-op when
indexOf is -1. -/
def removeFirst (l : List JVal) (x : JVal) : List JVal :=
  match l with
  | [] => []
  | y :: rest => if strictEq y x then rest else y :: removeFirst rest x

/-- ws.trackCallState of server.js: switch on data.type; the answer
case pushes peerId onto notifyOnClose, the bye case splices out its
first occurrence (a no-op when absent), every other type leaves the
array alone. -/
def trackCallState (data : JVal) (peerId : JVal) (nc : List JVal) : List JVal :=
  match getProp data "type" with
  | some (.str "answer") => nc ++ [peerId]
  | some (.str "bye") => removeFirst nc peerId
  | _ => nc

/-- The data.id argument that sendMessage hands to trackCallState.
Every reachable call passes an envelope whose id field is a string
(the close handler builds it that way and the router rewrites it to
the sender id first), so the null default stands for the unreachable
undefined case. -/
def idArg (data : JVal) : JVal :=
  (getProp data "id").getD .null

/-- ws.sendMessage of server.js, for the socket registered under
targetId: first trackCallState(data, data.id) on the receiving side,
then write the serialized envelope to the socket. A write error is
logged and otherwise ignored, so the outbox records every write. -/
def sendMessage (st : ServerState) (targetId : String) (data : JVal) : ServerState :=
  ⟨mupdate st.connections targetId fun c =>
    ⟨trackCallState data (idArg data) c.notifyOnClose, c.outbox ++ [data]⟩⟩

/-- A thrown JavaScript exception escaping a handler (there is no
try/catch around the id guard in the message handler). -/
inductive JsError where
  | typeError
deriving DecidableEq

/-- An inbound frame, abstracted at the JSON.parse boundary: either
text that does not parse (JSON.parse throws, caught by the handler),
or the parsed value. -/
inductive RawMsg where
  | malformed
  | parsed (v : JVal)

/-- The on-message handler of server.js (lines 252-279), for the
socket registered under selfId. Unparseable JSON is dropped by the
catch. The guard on data.id throws a TypeError when the message parsed
to the JSON literal null (reading a property of null), which escapes
the handler; a falsy or absent id is dropped; a target id that is not
a key of the registry (in particular any non-string id) is dropped.
Otherwise data.id is rewritten to the sender id, the envelope is
delivered through the target's sendMessage, and call state is tracked
on the sender with the original data.id as peerId. -/
def onMessage (st : ServerState) (selfId : String) (raw : RawMsg) : Except JsError ServerState :=
  match raw with
  | .malformed => .ok st
  | .parsed .null => .error .typeError
  | .parsed data =>
    match getProp data "id" with
    | none => .ok st
    | some idv =>
      if truthy idv then
        match idv with
        | .str peerId =>
          if mhas st.connections peerId then
            let data' := setProp data "id" (.str selfId)
            let st1 := sendMessage st peerId data'
            .ok ⟨mupdate st1.connections selfId fun c =>
              ⟨trackCallState data' (.str peerId) c.notifyOnClose, c.outbox⟩⟩
          else .ok st
        | _ => .ok st
      else .ok st

/-- An envelope with just a type tag and a target / sender id, in the
field order the clients and the close handler use. -/
def mkEnv (ty target : String) : JVal :=
  .obj [("type", .str ty), ("id", .str target)]

/-- The synthesized close notice of server.js, the object literal with
type bye and the closing socket's own id. -/
def byeEnvelope (selfId : String) : JVal :=
  mkEnv "bye" selfId

/-- The body of the notification loop of the close handler, for one
remoteId from notifyOnClose: look the peer up in the registry; a
missing peer (in particular any non-string remoteId) is skipped
silently, a present one is sent the synthesized bye through its
sendMessage. -/
def closeStep (selfId : String) (s : ServerState) (remoteId : JVal) : ServerState :=
  match remoteId with
  | .str r => if mhas s.connections r then sendMessage s r (byeEnvelope selfId) else s
  | _ => s

/-- The notification loop of the close handler over the whole
notifyOnClose array. -/
def notifyAll (st : ServerState) (selfId : String) (nc : List JVal) : ServerState :=
  nc.foldl (closeStep selfId) st

/-- The on-close handler of server.js (lines 237-250), for the socket
registered under selfId: delete the id from the registry, then run the
notification loop over this socket's notifyOnClose array. -/
def onClose (st : ServerState) (selfId : String) : ServerState :=
  let nc := match mget st.connections selfId with
            | some c => c.notifyOnClose
            | none => []
  notifyAll ⟨mdel st.connections selfId⟩ selfId nc

/-- The outcome of the ICE-server step for a new connection: no twilio
client configured (the static Google STUN branch), a configured client
whose tokens.create promise resolves with a server list, or one whose
promise rejects. -/
inductive IceOutcome where
  | static
  | dynamicOk (servers : JVal)
  | dynamicFail

/-- The greeting object literal sent right after registration. -/
def helloEnvelope (id : String) : JVal :=
  mkEnv "hello" id

/-- The iceServers envelope of the branch without a twilio client,
with the hard-coded Google STUN server. -/
def staticIceEnvelope : JVal :=
  .obj [("type", .str "iceServers"),
        ("iceServers", .arr [.obj [("urls", .str "stun:stun.l.google.com:19302")]])]

/-- The iceServers envelope built from a resolved twilio token. -/
def dynIceEnvelope (servers : JVal) : JVal :=
  .obj [("type", .str "iceServers"), ("iceServers", servers)]

/-- Result of the connection handler: the new registry state, whether
the socket was accepted (false means it was closed straight away), and
whether a promise rejection escaped unhandled. -/
structure ConnectResult where
  state : ServerState
  accepted : Bool
  unhandledRejection : Bool

/-- The connection handler of server.js (lines 197-232) with the
freshly minted id: if the registry already has the id, close the
socket and return without touching the registry; otherwise register
the socket, send the hello greeting directly over it, then the
iceServers step: the static list when no twilio client is configured,
the token's list when the create promise resolves, and nothing at all
when it rejects — the then call has no rejection handler, so the
rejection escapes unhandled. hello and iceServers go through ws.send
directly, not sendMessage, so they do not touch call state. The
asynchronous resolution is applied here directly; the claims only
concern what is eventually sent. -/
def onConnect (st : ServerState) (newId : String) (ice : IceOutcome) : ConnectResult :=
  if mhas st.connections newId then
    ⟨st, false, false⟩
  else
    let st1 : ServerState := ⟨mset st.connections newId ⟨[], [helloEnvelope newId]⟩⟩
    match ice with
    | .static =>
      ⟨⟨mupdate st1.connections newId fun c =>
        ⟨c.notifyOnClose, c.outbox ++ [staticIceEnvelope]⟩⟩, true, false⟩
    | .dynamicOk servers =>
      ⟨⟨mupdate st1.connections newId fun c =>
        ⟨c.notifyOnClose, c.outbox ++ [dynIceEnvelope servers]⟩⟩, true, false⟩
    | .dynamicFail => ⟨st1, true, true⟩

/-- The notifyOnClose array of the connection registered under an id,
the empty array when the id is not registered. -/
def ncOf (st : ServerState) (id : String) : List JVal :=
  match mget st.connections id with
  | some c => c.notifyOnClose
  | none => []

/-- The envelopes written so far to the connection registered under an
id, the empty list when the id is not registered. -/
def outboxOf (st : ServerState) (id : String) : List JVal :=
  match mget st.connections id with
  | some c => c.outbox
  | none => []

/-- Recognizer for a synthesized close notice from a given sender: an
object whose type field is the string bye and whose id field is the
sender's id. -/
def isByeFrom (m : JVal) (fromId : String) : Bool :=
  (match getProp m "type" with
   | some (.str t) => t == "bye"
   | _ => false)
  &&
  (match getProp m "id" with
   | some (.str i) => i == fromId
   | _ => false)

/-- How many close notices from a given sender a list of delivered
envelopes contains. -/
def countByeFrom (msgs : List JVal) (fromId : String) : Nat :=
  (msgs.filter (fun m => isByeFrom m fromId)).length

/-- Recognizer for an iceServers envelope. -/
def isIceServers (m : JVal) : Bool :=
  match getProp m "type" with
  | some (.str t) => t == "iceServers"
  | _ => false

example :
    (onMessage (onConnect (onConnect ⟨[]⟩ "A" .static).state "B" .static).state
      "A" (.parsed (mkEnv "answer" "B"))).map (fun s => ncOf s "A")
    = .ok [.str "B"] := rfl

/-- An offer envelope as in the routing-correctness scenario, target
first, opaque sdp payload last. -/
def offerEnv (target sdp : String) : JVal :=
  .obj [("type", .str "offer"), ("id", .str target), ("sdp", .str sdp)]

section MapLemmas

theorem mget_mset_self (m : List (String × Conn)) (k : String) (c : Conn) :
    mget (mset m k c) k = some c := by
  induction m with
  | nil => simp [mset, mget]
  | cons p rest ih =>
    obtain ⟨k', c'⟩ := p
    by_cases h : k' = k
    · simp [mset, mget, h]
    · simp [mset, mget, h, ih]

theorem mupdate_mset_self (m : List (String × Conn)) (k : String) (c : Conn) (f : Conn → Conn) :
    mupdate (mset m k c) k f = mset m k (f c) := by
  induction m with
  | nil => simp [mset, mupdate]
  | cons p rest ih =>
    obtain ⟨k', c'⟩ := p
    by_cases h : k' = k
    · simp [mset, mupdate, h]
    · simp [mset, mupdate, h, ih]

theorem mget_mupdate_self (m : List (String × Conn)) (k : String) (f : Conn → Conn) :
    mget (mupdate m k f) k = (mget m k).map f := by
  induction m with
  | nil => simp [mupdate, mget]
  | cons p rest ih =>
    obtain ⟨k', c'⟩ := p
    by_cases h : k' = k
    · simp [mupdate, mget, h]
    · simp [mupdate, mget, h, ih]

theorem mget_mupdate_ne (m : List (String × Conn)) (k k' : String) (f : Conn → Conn)
    (h : k' ≠ k) :
    mget (mupdate m k f) k' = mget m k' := by
  induction m with
  | nil => simp [mupdate, mget]
  | cons p rest ih =>
    obtain ⟨k'', c⟩ := p
    by_cases h2 : k'' = k
    · subst h2
      simp [mupdate, mget, Ne.symm h, h]
    · by_cases h3 : k'' = k'
      · simp [mupdate, mget, h2, h3, h]
      · simp [mupdate, mget, h2, h3, ih]

theorem mget_mupdate_none (m : List (String × Conn)) (k k' : String) (f : Conn → Conn)
    (h : mget m k' = none) :
    mget (mupdate m k f) k' = none := by
  by_cases hk : k' = k
  · subst hk
    rw [mget_mupdate_self, h]
    rfl
  · rw [mget_mupdate_ne m k k' f hk, h]

theorem mget_eq_none_of_not_mem (m : List (String × Conn)) (k : String)
    (h : k ∉ m.map Prod.fst) :
    mget m k = none := by
  induction m with
  | nil => simp [mget]
  | cons p rest ih =>
    obtain ⟨k', c⟩ := p
    simp only [List.map_cons, List.mem_cons] at h
    push_neg at h
    simp [mget, Ne.symm h.1, ih h.2]

theorem mget_mdel_self (m : List (String × Conn)) (k : String)
    (hnd : (m.map Prod.fst).Nodup) :
    mget (mdel m k) k = none := by
  induction m with
  | nil => simp [mdel, mget]
  | cons p rest ih =>
    obtain ⟨k', c⟩ := p
    simp only [List.map_cons, List.nodup_cons] at hnd
    by_cases h : k' = k
    · subst h
      simp [mdel, mget_eq_none_of_not_mem rest k' hnd.1]
    · simp [mdel, mget, h, ih hnd.2]

theorem mget_mdel_ne (m : List (String × Conn)) (k k' : String) (h : k' ≠ k) :
    mget (mdel m k) k' = mget m k' := by
  induction m with
  | nil => simp [mdel, mget]
  | cons p rest ih =>
    obtain ⟨k'', c⟩ := p
    by_cases h2 : k'' = k
    · subst h2
      simp [mdel, mget, Ne.symm h]
    · by_cases h3 : k'' = k'
      · simp [mdel, mget, h2, h3, h]
      · simp [mdel, mget, h2, h3, ih]

end MapLemmas

section RemoveLemmas

theorem strictEq_str_iff (y : JVal) (s : String) :
    strictEq y (.str s) = true ↔ y = .str s := by
  cases y <;> simp [strictEq]

theorem removeFirst_of_not_mem (l : List JVal) (s : String) (h : JVal.str s ∉ l) :
    removeFirst l (.str s) = l := by
  induction l with
  | nil => rfl
  | cons y rest ih =>
    simp only [List.mem_cons] at h
    push_neg at h
    have : strictEq y (.str s) = false := by
      rw [← Bool.not_eq_true, strictEq_str_iff]
      exact fun hy => h.1 hy.symm
    simp [removeFirst, this, ih h.2]

theorem removeFirst_append_last (l : List JVal) (s : String) (h : JVal.str s ∉ l) :
    removeFirst (l ++ [JVal.str s]) (.str s) = l := by
  induction l with
  | nil => simp [removeFirst, strictEq]
  | cons y rest ih =>
    simp only [List.mem_cons] at h
    push_neg at h
    have : strictEq y (.str s) = false := by
      rw [← Bool.not_eq_true, strictEq_str_iff]
      exact fun hy => h.1 hy.symm
    simp [removeFirst, this, ih h.2]

end RemoveLemmas

section EnvelopeLemmas

theorem getProp_mkEnv_type (ty t : String) :
    getProp (mkEnv ty t) "type" = some (.str ty) := by
  simp [mkEnv, getProp, objGet]

theorem getProp_mkEnv_id (ty t : String) :
    getProp (mkEnv ty t) "id" = some (.str t) := by
  simp [mkEnv, getProp, objGet]

theorem setProp_mkEnv_id (ty t a : String) :
    setProp (mkEnv ty t) "id" (.str a) = mkEnv ty a := by
  simp [mkEnv, setProp, objSet]

theorem getProp_offerEnv_type (t x : String) :
    getProp (offerEnv t x) "type" = some (.str "offer") := by
  simp [offerEnv, getProp, objGet]

theorem getProp_offerEnv_id (t x : String) :
    getProp (offerEnv t x) "id" = some (.str t) := by
  simp [offerEnv, getProp, objGet]

theorem setProp_offerEnv_id (t x a : String) :
    setProp (offerEnv t x) "id" (.str a) = offerEnv a x := by
  simp [offerEnv, setProp, objSet]

theorem getProp_offerEnv_sdp (t x : String) :
    getProp (offerEnv t x) "sdp" = some (.str x) := by
  simp [offerEnv, getProp, objGet]

theorem trackCallState_answer (d : JVal) (p : JVal) (nc : List JVal)
    (h : getProp d "type" = some (.str "answer")) :
    trackCallState d p nc = nc ++ [p] := by
  simp [trackCallState, h]

theorem trackCallState_bye (d : JVal) (p : JVal) (nc : List JVal)
    (h : getProp d "type" = some (.str "bye")) :
    trackCallState d p nc = removeFirst nc p := by
  simp [trackCallState, h]

theorem trackCallState_offer (d : JVal) (p : JVal) (nc : List JVal)
    (h : getProp d "type" = some (.str "offer")) :
    trackCallState d p nc = nc := by
  simp [trackCallState, h]

theorem idArg_mkEnv (ty t : String) : idArg (mkEnv ty t) = .str t := by
  simp [idArg, getProp_mkEnv_id]

theorem idArg_offerEnv (t x : String) : idArg (offerEnv t x) = .str t := by
  simp [idArg, getProp_offerEnv_id]

theorem truthy_str (s : String) (h : s ≠ "") : truthy (.str s) = true := by
  simp [truthy, h]

theorem outboxOf_eq (st : ServerState) (id : String) (c : Conn)
    (h : mget st.connections id = some c) : outboxOf st id = c.outbox := by
  simp [outboxOf, h]

theorem ncOf_eq (st : ServerState) (id : String) (c : Conn)
    (h : mget st.connections id = some c) : ncOf st id = c.notifyOnClose := by
  simp [ncOf, h]

end EnvelopeLemmas

section CloseLemmas

theorem notifyAll_cons (st : ServerState) (i : String) (x : JVal) (rest : List JVal) :
    notifyAll st i (x :: rest) = notifyAll (closeStep i st x) i rest := rfl

theorem notifyAll_append (st : ServerState) (i : String) (l1 l2 : List JVal) :
    notifyAll st i (l1 ++ l2) = notifyAll (notifyAll st i l1) i l2 := by
  simp [notifyAll, List.foldl_append]

theorem closeStep_mget_ne (i : String) (s : ServerState) (x : JVal) (B : String)
    (hx : x ≠ .str B) :
    mget (closeStep i s x).connections B = mget s.connections B := by
  cases x with
  | str r =>
    have hrB : B ≠ r := fun h => hx (congrArg JVal.str h.symm)
    by_cases h : mhas s.connections r
    · simp [closeStep, h, sendMessage, mget_mupdate_ne _ _ _ _ hrB]
    · simp [closeStep, h]
  | null => rfl
  | bool b => rfl
  | num n => rfl
  | arr xs => rfl
  | obj fs => rfl

theorem notifyAll_mget_not_mem (i : String) (nc : List JVal) (st : ServerState) (B : String)
    (h : JVal.str B ∉ nc) :
    mget (notifyAll st i nc).connections B = mget st.connections B := by
  induction nc generalizing st with
  | nil => rfl
  | cons x rest ih =>
    simp only [List.mem_cons] at h
    push_neg at h
    rw [notifyAll_cons, ih _ h.2, closeStep_mget_ne _ _ _ _ (fun hx => h.1 hx.symm)]

theorem closeStep_mget_none (i : String) (s : ServerState) (x : JVal) (A : String)
    (h : mget s.connections A = none) :
    mget (closeStep i s x).connections A = none := by
  cases x with
  | str r =>
    by_cases hr : mhas s.connections r
    · simp [closeStep, hr, sendMessage, mget_mupdate_none _ _ _ _ h]
    · simp [closeStep, hr, h]
  | null => exact h
  | bool b => exact h
  | num n => exact h
  | arr xs => exact h
  | obj fs => exact h

theorem notifyAll_mget_none (i : String) (nc : List JVal) (st : ServerState) (A : String)
    (h : mget st.connections A = none) :
    mget (notifyAll st i nc).connections A = none := by
  induction nc generalizing st with
  | nil => exact h
  | cons x rest ih =>
    rw [notifyAll_cons]
    exact ih _ (closeStep_mget_none _ _ _ _ h)

theorem onClose_eq (st : ServerState) (selfId : String) (c : Conn)
    (h : mget st.connections selfId = some c) :
    onClose st selfId = notifyAll ⟨mdel st.connections selfId⟩ selfId c.notifyOnClose := by
  simp [onClose, h]

theorem mupdate_keys (m : List (String × Conn)) (k : String) (f : Conn → Conn) :
    (mupdate m k f).map Prod.fst = m.map Prod.fst := by
  induction m with
  | nil => rfl
  | cons p rest ih =>
    obtain ⟨k', c⟩ := p
    by_cases h : k' = k
    · subst h
      simp [mupdate]
    · simp [mupdate, h, ih]

theorem mget_mdel_none (m : List (String × Conn)) (k r : String)
    (h : mget m r = none) :
    mget (mdel m k) r = none := by
  induction m with
  | nil => rfl
  | cons p rest ih =>
    obtain ⟨k', c⟩ := p
    by_cases h2 : k' = r
    · subst h2
      simp [mget] at h
    · simp only [mget, if_neg h2] at h
      by_cases h3 : k' = k
      · simpa [mdel, h3] using h
      · simp [mdel, h3, mget, h2, ih h]

/-- Closing a connection whose subscriber array does not mention B at
all leaves B's socket untouched: no bye is synthesized towards B. -/
theorem close_no_bye (s1 : ServerState) (A B : String) (ca1 cb1 : Conn)
    (hAB : A ≠ B)
    (hA1 : mget s1.connections A = some ca1)
    (hB1 : mget s1.connections B = some cb1)
    (hfresh : JVal.str B ∉ ca1.notifyOnClose) :
    outboxOf (onClose s1 A) B = cb1.outbox := by
  rw [onClose_eq _ _ _ hA1]
  have h1 : mget (notifyAll ⟨mdel s1.connections A⟩ A ca1.notifyOnClose).connections B
      = some cb1 := by
    rw [notifyAll_mget_not_mem _ _ _ _ hfresh]
    show mget (mdel s1.connections A) B = some cb1
    rw [mget_mdel_ne _ _ _ (Ne.symm hAB), hB1]
  exact outboxOf_eq _ _ _ h1

/-- Closing a connection whose subscriber array ends in B, with no
earlier occurrence of B, delivers exactly one synthesized bye to B's
socket, and the closing id is gone from the registry afterwards. -/
theorem close_delivers_bye (s1 : ServerState) (A B : String) (ca1 cb1 : Conn) (l : List JVal)
    (hnd1 : (s1.connections.map Prod.fst).Nodup)
    (hAB : A ≠ B)
    (hA1 : mget s1.connections A = some ca1)
    (hB1 : mget s1.connections B = some cb1)
    (hl : ca1.notifyOnClose = l ++ [JVal.str B])
    (hfresh : JVal.str B ∉ l) :
    outboxOf (onClose s1 A) B = cb1.outbox ++ [byeEnvelope A] ∧
    mhas (onClose s1 A).connections A = false := by
  rw [onClose_eq _ _ _ hA1, hl, notifyAll_append]
  have hmidB : mget (notifyAll ⟨mdel s1.connections A⟩ A l).connections B = some cb1 := by
    rw [notifyAll_mget_not_mem _ _ _ _ hfresh]
    show mget (mdel s1.connections A) B = some cb1
    rw [mget_mdel_ne _ _ _ (Ne.symm hAB), hB1]
  have hmidA : mget (notifyAll ⟨mdel s1.connections A⟩ A l).connections A = none :=
    notifyAll_mget_none _ _ _ _ (mget_mdel_self _ _ hnd1)
  have hstep : notifyAll (notifyAll ⟨mdel s1.connections A⟩ A l) A [JVal.str B]
      = sendMessage (notifyAll ⟨mdel s1.connections A⟩ A l) B (byeEnvelope A) := by
    have hh : mhas (notifyAll ⟨mdel s1.connections A⟩ A l).connections B = true := by
      simp [mhas, hmidB]
    show closeStep A (notifyAll ⟨mdel s1.connections A⟩ A l) (.str B)
      = sendMessage (notifyAll ⟨mdel s1.connections A⟩ A l) B (byeEnvelope A)
    simp [closeStep, hh]
  rw [hstep]
  constructor
  · have h2 : mget (sendMessage (notifyAll ⟨mdel s1.connections A⟩ A l) B
        (byeEnvelope A)).connections B
        = some ⟨trackCallState (byeEnvelope A) (idArg (byeEnvelope A)) cb1.notifyOnClose,
                cb1.outbox ++ [byeEnvelope A]⟩ := by
      show mget (mupdate (notifyAll ⟨mdel s1.connections A⟩ A l).connections B
          (fun c => ⟨trackCallState (byeEnvelope A) (idArg (byeEnvelope A)) c.notifyOnClose,
            c.outbox ++ [byeEnvelope A]⟩)) B = _
      rw [mget_mupdate_self, hmidB]
      rfl
    exact outboxOf_eq _ _ _ h2
  · have h3 : mget (sendMessage (notifyAll ⟨mdel s1.connections A⟩ A l) B
        (byeEnvelope A)).connections A = none := by
      show mget (mupdate (notifyAll ⟨mdel s1.connections A⟩ A l).connections B
          (fun c => ⟨trackCallState (byeEnvelope A) (idArg (byeEnvelope A)) c.notifyOnClose,
            c.outbox ++ [byeEnvelope A]⟩)) A = none
      exact mget_mupdate_none _ _ _ _ hmidA
    simp [mhas, h3]

end CloseLemmas

section ForwardLemma

/-- The successful branch of the message handler, for any envelope
whose id field is a non-empty string naming a registered target: the
target's sendMessage runs on the id-rewritten envelope, then the
sender's own trackCallState runs with the original target id. -/
theorem onMessage_forward (st : ServerState) (A B : String) (data : JVal)
    (hid : getProp data "id" = some (.str B)) (hB0 : B ≠ "")
    (hB : mhas st.connections B = true) :
    onMessage st A (.parsed data)
      = .ok ⟨mupdate (sendMessage st B (setProp data "id" (.str A))).connections A
          (fun c => ⟨trackCallState (setProp data "id" (.str A)) (.str B) c.notifyOnClose,
                     c.outbox⟩)⟩ := by
  cases data with
  | null => simp [getProp] at hid
  | bool b => simp [getProp] at hid
  | num n => simp [getProp] at hid
  | str s => simp [getProp] at hid
  | arr xs => simp [getProp] at hid
  | obj fs =>
    simp only [onMessage]
    rw [hid]
    simp [truthy_str B hB0, hB]

/-- The successful branch of the message handler between two distinct
registered connections, together with the registry facts it leaves
behind: the sender's A entry tracked the original target id, the
target's B entry tracked the rewritten sender id and received the
rewritten envelope, and the key set of the registry is unchanged. -/
theorem onMessage_forward_mget (st : ServerState) (A B : String) (data : JVal) (ca cb : Conn)
    (hid : getProp data "id" = some (.str B)) (hB0 : B ≠ "") (hAB : A ≠ B)
    (hA : mget st.connections A = some ca)
    (hB : mget st.connections B = some cb) :
    ∃ S : ServerState,
      onMessage st A (.parsed data) = .ok S ∧
      mget S.connections A
        = some ⟨trackCallState (setProp data "id" (.str A)) (.str B) ca.notifyOnClose,
                ca.outbox⟩ ∧
      mget S.connections B
        = some ⟨trackCallState (setProp data "id" (.str A))
                  (idArg (setProp data "id" (.str A))) cb.notifyOnClose,
                cb.outbox ++ [setProp data "id" (.str A)]⟩ ∧
      S.connections.map Prod.fst = st.connections.map Prod.fst := by
  have hbhas : mhas st.connections B = true := by simp [mhas, hB]
  refine ⟨⟨mupdate (sendMessage st B (setProp data "id" (.str A))).connections A
      (fun c => ⟨trackCallState (setProp data "id" (.str A)) (.str B) c.notifyOnClose,
        c.outbox⟩)⟩,
    onMessage_forward st A B data hid hB0 hbhas, ?_, ?_, ?_⟩
  · show mget (mupdate (sendMessage st B (setProp data "id" (.str A))).connections A
        (fun c => ⟨trackCallState (setProp data "id" (.str A)) (.str B) c.notifyOnClose,
          c.outbox⟩)) A = _
    rw [mget_mupdate_self]
    have h1 : mget (sendMessage st B (setProp data "id" (.str A))).connections A
        = some ca := by
      show mget (mupdate st.connections B
          (fun c => ⟨trackCallState (setProp data "id" (.str A))
              (idArg (setProp data "id" (.str A))) c.notifyOnClose,
            c.outbox ++ [setProp data "id" (.str A)]⟩)) A = some ca
      rw [mget_mupdate_ne _ _ _ _ hAB, hA]
    rw [h1]
    rfl
  · show mget (mupdate (sendMessage st B (setProp data "id" (.str A))).connections A
        (fun c => ⟨trackCallState (setProp data "id" (.str A)) (.str B) c.notifyOnClose,
          c.outbox⟩)) B = _
    rw [mget_mupdate_ne _ _ _ _ (Ne.symm hAB)]
    show mget (mupdate st.connections B
        (fun c => ⟨trackCallState (setProp data "id" (.str A))
            (idArg (setProp data "id" (.str A))) c.notifyOnClose,
          c.outbox ++ [setProp data "id" (.str A)]⟩)) B = _
    rw [mget_mupdate_self, hB]
    rfl
  · show (mupdate (sendMessage st B (setProp data "id" (.str A))).connections A
        (fun c => ⟨trackCallState (setProp data "id" (.str A)) (.str B) c.notifyOnClose,
          c.outbox⟩)).map Prod.fst = _
    rw [mupdate_keys]
    show (mupdate st.connections B
        (fun c => ⟨trackCallState (setProp data "id" (.str A))
            (idArg (setProp data "id" (.str A))) c.notifyOnClose,
          c.outbox ++ [setProp data "id" (.str A)]⟩)).map Prod.fst = _
    rw [mupdate_keys]

end ForwardLemma

/-- A registry with two fresh connections, as right after the two
connects of the end-to-end scenario (outboxes elided). -/
def stAB : ServerState := ⟨[("A", ⟨[], []⟩), ("B", ⟨[], []⟩)]⟩

/-- C4: for two registered connections A and B, when A sends an offer
envelope addressed to B, B receives the same envelope with the id
field rewritten to A and the type and sdp fields passed through
unchanged, and B's call state is untouched; in general the id rewrite
changes no other field of an envelope. -/
theorem offer_forwarded_id_rewritten
    (st : ServerState) (A B x : String) (cb : Conn)
    (hAB : A ≠ B) (hB0 : B ≠ "")
    (hB : mget st.connections B = some cb) :
    ((onMessage st A (.parsed (offerEnv B x))).map fun s => (outboxOf s B, ncOf s B))
      = .ok (cb.outbox ++ [offerEnv A x], cb.notifyOnClose) ∧
    getProp (setProp (offerEnv B x) "id" (.str A)) "type" = getProp (offerEnv B x) "type" ∧
    getProp (setProp (offerEnv B x) "id" (.str A)) "sdp" = getProp (offerEnv B x) "sdp" ∧
    getProp (setProp (offerEnv B x) "id" (.str A)) "id" = some (.str A) := by
  refine ⟨?_, ?_, ?_, ?_⟩
  · have hbhas : mhas st.connections B = true := by simp [mhas, hB]
    rw [onMessage_forward st A B _ (getProp_offerEnv_id B x) hB0 hbhas,
        setProp_offerEnv_id]
    have h1 : mget (sendMessage st B (offerEnv A x)).connections B
        = some ⟨trackCallState (offerEnv A x) (idArg (offerEnv A x)) cb.notifyOnClose,
                cb.outbox ++ [offerEnv A x]⟩ := by
      simp [sendMessage, mget_mupdate_self, hB]
    have h2 : trackCallState (offerEnv A x) (idArg (offerEnv A x)) cb.notifyOnClose
        = cb.notifyOnClose := trackCallState_offer _ _ _ (getProp_offerEnv_type A x)
    rw [h2] at h1
    have h3 : mget (mupdate (sendMessage st B (offerEnv A x)).connections A
        (fun c => ⟨trackCallState (offerEnv A x) (.str B) c.notifyOnClose, c.outbox⟩)) B
        = some ⟨cb.notifyOnClose, cb.outbox ++ [offerEnv A x]⟩ := by
      rw [mget_mupdate_ne _ _ _ _ (Ne.symm hAB), h1]
    simp [Except.map, outboxOf_eq _ _ _ h3, ncOf_eq _ _ _ h3]
  · rw [setProp_offerEnv_id, getProp_offerEnv_type, getProp_offerEnv_type]
  · rw [setProp_offerEnv_id, getProp_offerEnv_sdp, getProp_offerEnv_sdp]
  · rw [setProp_offerEnv_id, getProp_offerEnv_id]

/-- C4 witness: the concrete offer exchange of the end-to-end
scenario. -/
theorem offer_forwarded_id_rewritten_witness :
    ((onMessage stAB "A" (.parsed (offerEnv "B" "x"))).map fun s => (outboxOf s "B", ncOf s "B"))
      = .ok ([offerEnv "A" "x"], []) ∧
    getProp (setProp (offerEnv "B" "x") "id" (.str "A")) "type"
      = getProp (offerEnv "B" "x") "type" ∧
    getProp (setProp (offerEnv "B" "x") "id" (.str "A")) "sdp"
      = getProp (offerEnv "B" "x") "sdp" ∧
    getProp (setProp (offerEnv "B" "x") "id" (.str "A")) "id" = some (.str "A") :=
  offer_forwarded_id_rewritten stAB "A" "B" "x" ⟨[], []⟩ (by decide) (by decide) rfl

/-- C6: when the freshly minted id of a new connection is already a
key of the registry, the connection is rejected (closed, not
accepted) and the whole state is returned untouched: the existing
entry stays as it was and no entry is added. -/
theorem duplicate_id_rejected_no_mutation
    (st : ServerState) (id : String) (ice : IceOutcome)
    (h : mhas st.connections id = true) :
    onConnect st id ice = ⟨st, false, false⟩ := by
  simp [onConnect, h]

/-- C6 witness: a second connection drawing the id of a registered
one is rejected without registry mutation. -/
theorem duplicate_id_rejected_no_mutation_witness :
    onConnect stAB "A" .static = ⟨stAB, false, false⟩ :=
  duplicate_id_rejected_no_mutation stAB "A" .static rfl

/-- C7: an envelope whose id field is a non-empty string that is not a
key of the registry is dropped: the handler returns the state exactly
unchanged, with no error, no forwarding, no reply and no call-state
or registry mutation. -/
theorem unknown_target_dropped
    (st : ServerState) (selfId t : String) (data : JVal)
    (hid : getProp data "id" = some (.str t))
    (ht : t ≠ "")
    (hmiss : mhas st.connections t = false) :
    onMessage st selfId (.parsed data) = .ok st := by
  cases data with
  | null => simp [getProp] at hid
  | bool b => simp [getProp] at hid
  | num n => simp [getProp] at hid
  | str s => simp [getProp] at hid
  | arr xs => simp [getProp] at hid
  | obj fs =>
    simp only [onMessage]
    rw [hid]
    simp [truthy_str t ht, hmiss]

/-- C7 witness: an envelope addressed to an unregistered identity is
dropped with the state unchanged. -/
theorem unknown_target_dropped_witness :
    onMessage stAB "A" (.parsed (offerEnv "C" "x")) = .ok stAB :=
  unknown_target_dropped stAB "A" "C" _ (getProp_offerEnv_id "C" "x") (by decide) rfl

/-- C8: evaluation of the handler at the failing input: a message that
parses to the JSON literal null reaches the guard on data.id, whose
property read on null throws a TypeError that escapes the handler
instead of the silent drop the claim describes. -/
theorem null_message_throws (st : ServerState) (selfId : String) :
    onMessage st selfId (.parsed .null) = .error .typeError := rfl

/-- C9: an envelope whose id field is present but holds a falsy value
is dropped exactly like a missing-id envelope: the handler returns
the state unchanged with no error. -/
theorem falsy_id_dropped
    (st : ServerState) (selfId : String) (fs : List (String × JVal)) (v : JVal)
    (hv : objGet fs "id" = some v) (hfalsy : truthy v = false) :
    onMessage st selfId (.parsed (.obj fs)) = .ok st := by
  simp only [onMessage, getProp]
  rw [hv]
  simp [hfalsy]

/-- C9 witness: an envelope whose id field is the empty string is
dropped; so are ones carrying 0, false or null there. -/
theorem falsy_id_dropped_witness :
    onMessage stAB "A" (.parsed (.obj [("type", .str "offer"), ("id", .str "")])) = .ok stAB ∧
    onMessage stAB "A" (.parsed (.obj [("id", .num 0)])) = .ok stAB ∧
    onMessage stAB "A" (.parsed (.obj [("id", .bool false)])) = .ok stAB ∧
    onMessage stAB "A" (.parsed (.obj [("id", .null)])) = .ok stAB :=
  ⟨falsy_id_dropped stAB "A" _ _ rfl rfl,
   falsy_id_dropped stAB "A" _ _ rfl rfl,
   falsy_id_dropped stAB "A" _ _ rfl rfl,
   falsy_id_dropped stAB "A" _ _ rfl rfl⟩

/-- A one-connection registry whose subscriber array names an id that
was never registered, for the silently-skipped part of the close
cascade. -/
def stC : ServerState := ⟨[("C", ⟨[JVal.str "Z"], []⟩)]⟩

/-- C3: two registered connections A and B exchange exactly one answer
(either direction), then A disconnects: B receives exactly one
synthesized bye envelope naming A (appended after whatever B already
received), and A is gone from the registry; moreover a close cascade
whose subscriber entry names an unregistered id delivers nothing and
is silently skipped. -/
theorem single_answer_close_single_bye
    (st : ServerState) (A B : String) (ca cb : Conn)
    (st2 : ServerState) (C r : String) (c2 : Conn)
    (hnd : (st.connections.map Prod.fst).Nodup)
    (hAB : A ≠ B) (hA0 : A ≠ "") (hB0 : B ≠ "")
    (hA : mget st.connections A = some ca)
    (hB : mget st.connections B = some cb)
    (hfresh : JVal.str B ∉ ca.notifyOnClose)
    (hc2 : mget st2.connections C = some c2)
    (hnc2 : c2.notifyOnClose = [JVal.str r])
    (hr : mget st2.connections r = none) :
    ((onMessage st A (.parsed (mkEnv "answer" B))).map fun s =>
        (outboxOf (onClose s A) B, mhas (onClose s A).connections A))
      = .ok (cb.outbox ++ [mkEnv "answer" A, byeEnvelope A], false) ∧
    ((onMessage st B (.parsed (mkEnv "answer" A))).map fun s =>
        outboxOf (onClose s A) B)
      = .ok (cb.outbox ++ [byeEnvelope A]) ∧
    onClose st2 C = ⟨mdel st2.connections C⟩ := by
  refine ⟨?_, ?_, ?_⟩
  · obtain ⟨S, hmsg, hSA, hSB, hkeys⟩ :=
      onMessage_forward_mget st A B (mkEnv "answer" B) ca cb
        (getProp_mkEnv_id "answer" B) hB0 hAB hA hB
    rw [setProp_mkEnv_id] at hSA hSB
    rw [idArg_mkEnv] at hSB
    rw [trackCallState_answer _ _ _ (getProp_mkEnv_type "answer" A)] at hSA hSB
    have hndS : (S.connections.map Prod.fst).Nodup := by rw [hkeys]; exact hnd
    obtain ⟨ho, hh⟩ := close_delivers_bye S A B _ _ ca.notifyOnClose hndS hAB hSA hSB rfl hfresh
    rw [hmsg]
    simp only [Except.map]
    rw [ho, hh]
    simp
  · obtain ⟨S, hmsg, hSB, hSA, hkeys⟩ :=
      onMessage_forward_mget st B A (mkEnv "answer" A) cb ca
        (getProp_mkEnv_id "answer" A) hA0 (Ne.symm hAB) hB hA
    rw [setProp_mkEnv_id] at hSA hSB
    rw [idArg_mkEnv] at hSA
    rw [trackCallState_answer _ _ _ (getProp_mkEnv_type "answer" B)] at hSA hSB
    have hndS : (S.connections.map Prod.fst).Nodup := by rw [hkeys]; exact hnd
    obtain ⟨ho, _⟩ := close_delivers_bye S A B _ _ ca.notifyOnClose hndS hAB hSA hSB rfl hfresh
    rw [hmsg]
    simp only [Except.map]
    rw [ho]
  · rw [onClose_eq _ _ _ hc2, hnc2]
    show closeStep C ⟨mdel st2.connections C⟩ (.str r) = _
    have : mget (mdel st2.connections C) r = none := mget_mdel_none _ _ _ hr
    simp [closeStep, mhas, this]

/-- C3 witness: the concrete scenario on two fresh connections, and a
skipped delivery towards a never-registered id. -/
theorem single_answer_close_single_bye_witness :
    ((onMessage stAB "A" (.parsed (mkEnv "answer" "B"))).map fun s =>
        (outboxOf (onClose s "A") "B", mhas (onClose s "A").connections "A"))
      = .ok ([mkEnv "answer" "A", byeEnvelope "A"], false) ∧
    ((onMessage stAB "B" (.parsed (mkEnv "answer" "A"))).map fun s =>
        outboxOf (onClose s "A") "B")
      = .ok ([byeEnvelope "A"]) ∧
    onClose stC "C" = ⟨mdel stC.connections "C"⟩ :=
  single_answer_close_single_bye stAB "A" "B" ⟨[], []⟩ ⟨[], []⟩ stC "C" "Z" ⟨[JVal.str "Z"], []⟩
    (by decide) (by decide) (by decide) (by decide) rfl rfl (by simp) rfl rfl rfl

/-- C5: two registered connections A and B exchange one answer and
then one bye, each in either of the four direction combinations; the
bye exchange restores both subscriber arrays, so when A subsequently
disconnects the close cascade appends nothing to B: B's socket after
the disconnect holds exactly what the exchange itself delivered and no
synthesized bye. -/
theorem answer_bye_close_no_bye
    (st : ServerState) (A B : String) (ca cb : Conn)
    (hAB : A ≠ B) (hA0 : A ≠ "") (hB0 : B ≠ "")
    (hA : mget st.connections A = some ca)
    (hB : mget st.connections B = some cb)
    (hfa : JVal.str B ∉ ca.notifyOnClose)
    (hfb : JVal.str A ∉ cb.notifyOnClose) :
    (((onMessage st A (.parsed (mkEnv "answer" B))).bind fun s1 =>
        onMessage s1 A (.parsed (mkEnv "bye" B))).map fun s2 =>
        (ncOf s2 A, ncOf s2 B, outboxOf (onClose s2 A) B, outboxOf s2 B))
      = .ok (ca.notifyOnClose, cb.notifyOnClose,
             cb.outbox ++ [mkEnv "answer" A, mkEnv "bye" A],
             cb.outbox ++ [mkEnv "answer" A, mkEnv "bye" A]) ∧
    (((onMessage st A (.parsed (mkEnv "answer" B))).bind fun s1 =>
        onMessage s1 B (.parsed (mkEnv "bye" A))).map fun s2 =>
        (ncOf s2 A, ncOf s2 B, outboxOf (onClose s2 A) B, outboxOf s2 B))
      = .ok (ca.notifyOnClose, cb.notifyOnClose,
             cb.outbox ++ [mkEnv "answer" A], cb.outbox ++ [mkEnv "answer" A]) ∧
    (((onMessage st B (.parsed (mkEnv "answer" A))).bind fun s1 =>
        onMessage s1 A (.parsed (mkEnv "bye" B))).map fun s2 =>
        (ncOf s2 A, ncOf s2 B, outboxOf (onClose s2 A) B, outboxOf s2 B))
      = .ok (ca.notifyOnClose, cb.notifyOnClose,
             cb.outbox ++ [mkEnv "bye" A], cb.outbox ++ [mkEnv "bye" A]) ∧
    (((onMessage st B (.parsed (mkEnv "answer" A))).bind fun s1 =>
        onMessage s1 B (.parsed (mkEnv "bye" A))).map fun s2 =>
        (ncOf s2 A, ncOf s2 B, outboxOf (onClose s2 A) B, outboxOf s2 B))
      = .ok (ca.notifyOnClose, cb.notifyOnClose, cb.outbox, cb.outbox) := by
  refine ⟨?_, ?_, ?_, ?_⟩
  · obtain ⟨S1, hm1, hS1A, hS1B, _⟩ :=
      onMessage_forward_mget st A B (mkEnv "answer" B) ca cb
        (getProp_mkEnv_id "answer" B) hB0 hAB hA hB
    rw [setProp_mkEnv_id] at hS1A hS1B
    rw [idArg_mkEnv] at hS1B
    rw [trackCallState_answer _ _ _ (getProp_mkEnv_type "answer" A)] at hS1A hS1B
    obtain ⟨S2, hm2, hS2A, hS2B, _⟩ :=
      onMessage_forward_mget S1 A B (mkEnv "bye" B) _ _
        (getProp_mkEnv_id "bye" B) hB0 hAB hS1A hS1B
    rw [setProp_mkEnv_id] at hS2A hS2B
    rw [idArg_mkEnv] at hS2B
    rw [trackCallState_bye _ _ _ (getProp_mkEnv_type "bye" A)] at hS2A hS2B
    rw [removeFirst_append_last _ _ hfa] at hS2A
    rw [removeFirst_append_last _ _ hfb] at hS2B
    have hno := close_no_bye S2 A B _ _ hAB hS2A hS2B hfa
    rw [hm1]
    simp only [Except.bind]
    rw [hm2]
    simp [Except.map, ncOf_eq _ _ _ hS2A, ncOf_eq _ _ _ hS2B,
          outboxOf_eq _ _ _ hS2B, hno, List.append_assoc]
  · obtain ⟨S1, hm1, hS1A, hS1B, _⟩ :=
      onMessage_forward_mget st A B (mkEnv "answer" B) ca cb
        (getProp_mkEnv_id "answer" B) hB0 hAB hA hB
    rw [setProp_mkEnv_id] at hS1A hS1B
    rw [idArg_mkEnv] at hS1B
    rw [trackCallState_answer _ _ _ (getProp_mkEnv_type "answer" A)] at hS1A hS1B
    obtain ⟨S2, hm2, hS2B, hS2A, _⟩ :=
      onMessage_forward_mget S1 B A (mkEnv "bye" A) _ _
        (getProp_mkEnv_id "bye" A) hA0 (Ne.symm hAB) hS1B hS1A
    rw [setProp_mkEnv_id] at hS2A hS2B
    rw [idArg_mkEnv] at hS2A
    rw [trackCallState_bye _ _ _ (getProp_mkEnv_type "bye" B)] at hS2A hS2B
    rw [removeFirst_append_last _ _ hfa] at hS2A
    rw [removeFirst_append_last _ _ hfb] at hS2B
    have hno := close_no_bye S2 A B _ _ hAB hS2A hS2B hfa
    rw [hm1]
    simp only [Except.bind]
    rw [hm2]
    simp [Except.map, ncOf_eq _ _ _ hS2A, ncOf_eq _ _ _ hS2B,
          outboxOf_eq _ _ _ hS2B, hno, List.append_assoc]
  · obtain ⟨S1, hm1, hS1B, hS1A, _⟩ :=
      onMessage_forward_mget st B A (mkEnv "answer" A) cb ca
        (getProp_mkEnv_id "answer" A) hA0 (Ne.symm hAB) hB hA
    rw [setProp_mkEnv_id] at hS1A hS1B
    rw [idArg_mkEnv] at hS1A
    rw [trackCallState_answer _ _ _ (getProp_mkEnv_type "answer" B)] at hS1A hS1B
    obtain ⟨S2, hm2, hS2A, hS2B, _⟩ :=
      onMessage_forward_mget S1 A B (mkEnv "bye" B) _ _
        (getProp_mkEnv_id "bye" B) hB0 hAB hS1A hS1B
    rw [setProp_mkEnv_id] at hS2A hS2B
    rw [idArg_mkEnv] at hS2B
    rw [trackCallState_bye _ _ _ (getProp_mkEnv_type "bye" A)] at hS2A hS2B
    rw [removeFirst_append_last _ _ hfa] at hS2A
    rw [removeFirst_append_last _ _ hfb] at hS2B
    have hno := close_no_bye S2 A B _ _ hAB hS2A hS2B hfa
    rw [hm1]
    simp only [Except.bind]
    rw [hm2]
    simp [Except.map, ncOf_eq _ _ _ hS2A, ncOf_eq _ _ _ hS2B,
          outboxOf_eq _ _ _ hS2B, hno, List.append_assoc]
  · obtain ⟨S1, hm1, hS1B, hS1A, _⟩ :=
      onMessage_forward_mget st B A (mkEnv "answer" A) cb ca
        (getProp_mkEnv_id "answer" A) hA0 (Ne.symm hAB) hB hA
    rw [setProp_mkEnv_id] at hS1A hS1B
    rw [idArg_mkEnv] at hS1A
    rw [trackCallState_answer _ _ _ (getProp_mkEnv_type "answer" B)] at hS1A hS1B
    obtain ⟨S2, hm2, hS2B, hS2A, _⟩ :=
      onMessage_forward_mget S1 B A (mkEnv "bye" A) _ _
        (getProp_mkEnv_id "bye" A) hA0 (Ne.symm hAB) hS1B hS1A
    rw [setProp_mkEnv_id] at hS2A hS2B
    rw [idArg_mkEnv] at hS2A
    rw [trackCallState_bye _ _ _ (getProp_mkEnv_type "bye" B)] at hS2A hS2B
    rw [removeFirst_append_last _ _ hfa] at hS2A
    rw [removeFirst_append_last _ _ hfb] at hS2B
    have hno := close_no_bye S2 A B _ _ hAB hS2A hS2B hfa
    rw [hm1]
    simp only [Except.bind]
    rw [hm2]
    simp [Except.map, ncOf_eq _ _ _ hS2A, ncOf_eq _ _ _ hS2B,
          outboxOf_eq _ _ _ hS2B, hno, List.append_assoc]

/-- C5 witness: the four direction combinations on two fresh
connections. -/
theorem answer_bye_close_no_bye_witness :
    (((onMessage stAB "A" (.parsed (mkEnv "answer" "B"))).bind fun s1 =>
        onMessage s1 "A" (.parsed (mkEnv "bye" "B"))).map fun s2 =>
        (ncOf s2 "A", ncOf s2 "B", outboxOf (onClose s2 "A") "B", outboxOf s2 "B"))
      = .ok ([], [], [mkEnv "answer" "A", mkEnv "bye" "A"],
             [mkEnv "answer" "A", mkEnv "bye" "A"]) ∧
    (((onMessage stAB "A" (.parsed (mkEnv "answer" "B"))).bind fun s1 =>
        onMessage s1 "B" (.parsed (mkEnv "bye" "A"))).map fun s2 =>
        (ncOf s2 "A", ncOf s2 "B", outboxOf (onClose s2 "A") "B", outboxOf s2 "B"))
      = .ok ([], [], [mkEnv "answer" "A"], [mkEnv "answer" "A"]) ∧
    (((onMessage stAB "B" (.parsed (mkEnv "answer" "A"))).bind fun s1 =>
        onMessage s1 "A" (.parsed (mkEnv "bye" "B"))).map fun s2 =>
        (ncOf s2 "A", ncOf s2 "B", outboxOf (onClose s2 "A") "B", outboxOf s2 "B"))
      = .ok ([], [], [mkEnv "bye" "A"], [mkEnv "bye" "A"]) ∧
    (((onMessage stAB "B" (.parsed (mkEnv "answer" "A"))).bind fun s1 =>
        onMessage s1 "B" (.parsed (mkEnv "bye" "A"))).map fun s2 =>
        (ncOf s2 "A", ncOf s2 "B", outboxOf (onClose s2 "A") "B", outboxOf s2 "B"))
      = .ok ([], [], [], []) :=
  answer_bye_close_no_bye stAB "A" "B" ⟨[], []⟩ ⟨[], []⟩
    (by decide) (by decide) (by decide) rfl rfl (by simp) (by simp)

/-- C10: a registered connection C sending an answer envelope
addressed to its own identity is not rejected: the envelope is
forwarded back to C with the id field rewritten to C itself, and C's
own id is appended to C's subscriber array twice, once by the
receiver-side tracking inside sendMessage and once by the sender-side
tracking of the message handler. -/
theorem self_addressed_answer_loops_back
    (st : ServerState) (C : String) (cc : Conn)
    (hC0 : C ≠ "") (hC : mget st.connections C = some cc) :
    ((onMessage st C (.parsed (mkEnv "answer" C))).map fun s => (outboxOf s C, ncOf s C))
      = .ok (cc.outbox ++ [mkEnv "answer" C],
             cc.notifyOnClose ++ [.str C, .str C]) := by
  have hhas : mhas st.connections C = true := by simp [mhas, hC]
  rw [onMessage_forward st C C _ (getProp_mkEnv_id "answer" C) hC0 hhas, setProp_mkEnv_id]
  have h1 : mget (sendMessage st C (mkEnv "answer" C)).connections C
      = some ⟨cc.notifyOnClose ++ [.str C], cc.outbox ++ [mkEnv "answer" C]⟩ := by
    show mget (mupdate st.connections C
        (fun c => ⟨trackCallState (mkEnv "answer" C) (idArg (mkEnv "answer" C)) c.notifyOnClose,
          c.outbox ++ [mkEnv "answer" C]⟩)) C = _
    rw [mget_mupdate_self, hC]
    simp [idArg_mkEnv, trackCallState_answer _ _ _ (getProp_mkEnv_type "answer" C)]
  have h2 : mget (mupdate (sendMessage st C (mkEnv "answer" C)).connections C
      (fun c => ⟨trackCallState (mkEnv "answer" C) (.str C) c.notifyOnClose, c.outbox⟩)) C
      = some ⟨(cc.notifyOnClose ++ [.str C]) ++ [.str C],
              cc.outbox ++ [mkEnv "answer" C]⟩ := by
    rw [mget_mupdate_self, h1]
    simp [trackCallState_answer _ _ _ (getProp_mkEnv_type "answer" C)]
  simp [Except.map, outboxOf_eq _ _ _ h2, ncOf_eq _ _ _ h2, List.append_assoc]

/-- C10 witness: a fresh connection dials itself with an answer. -/
theorem self_addressed_answer_loops_back_witness :
    ((onMessage stAB "A" (.parsed (mkEnv "answer" "A"))).map fun s =>
        (outboxOf s "A", ncOf s "A"))
      = .ok ([mkEnv "answer" "A"], [.str "A", .str "A"]) :=
  self_addressed_answer_loops_back stAB "A" ⟨[], []⟩ (by decide) rfl

/-- C1 counterexample: A sends the same answer envelope towards B
twice; A's subscriber array then holds B twice, not once, and when A
disconnects B receives two synthesized bye notices, refuting the
at-most-one-bye reading of the claim. -/
theorem double_answer_double_bye_cex :
    ((onMessage stAB "A" (.parsed (mkEnv "answer" "B"))).bind fun s1 =>
      (onMessage s1 "A" (.parsed (mkEnv "answer" "B"))).map fun s2 =>
        (ncOf s2 "A", countByeFrom (outboxOf (onClose s2 "A") "B") "A"))
    = .ok ([.str "B", .str "B"], 2) := rfl

/-- C1 as amended: the answer transition appends the peer to the
subscriber array even when already present, so applying it twice
leaves two occurrences (one bye each on disconnect); the bye
transition for an absent peer is a no-op, not an error. -/
theorem answer_appends_and_absent_bye_noop
    (d d' : JVal) (p : String) (nc nc' : List JVal)
    (h1 : getProp d "type" = some (.str "answer"))
    (h2 : getProp d' "type" = some (.str "bye"))
    (h3 : JVal.str p ∉ nc') :
    trackCallState d (.str p) (trackCallState d (.str p) nc)
      = nc ++ [.str p, .str p] ∧
    trackCallState d' (.str p) nc' = nc' := by
  constructor
  · rw [trackCallState_answer _ _ _ h1, trackCallState_answer _ _ _ h1,
        List.append_assoc]
    rfl
  · rw [trackCallState_bye _ _ _ h2, removeFirst_of_not_mem _ _ h3]

/-- C1 amended-claim witness: two answers for the same peer on an
empty array, and a bye on an empty array. -/
theorem answer_appends_and_absent_bye_noop_witness :
    trackCallState (mkEnv "answer" "B") (.str "B")
        (trackCallState (mkEnv "answer" "B") (.str "B") [])
      = [.str "B", .str "B"] ∧
    trackCallState (mkEnv "bye" "B") (.str "B") [] = [] :=
  answer_appends_and_absent_bye_noop _ _ "B" [] []
    (getProp_mkEnv_type "answer" "B") (getProp_mkEnv_type "bye" "B") (by simp)

/-- C2 counterexample: with a configured dynamic ICE provider whose
fetch fails, the freshly accepted connection never receives any
iceServers envelope — only the hello greeting — and the promise
rejection escapes unhandled, refuting the claim that a fallback list
is still sent. -/
theorem provider_failure_sends_no_ice_cex :
    (outboxOf (onConnect ⟨[]⟩ "A" .dynamicFail).state "A").filter isIceServers = [] ∧
    outboxOf (onConnect ⟨[]⟩ "A" .dynamicFail).state "A" = [helloEnvelope "A"] ∧
    (onConnect ⟨[]⟩ "A" .dynamicFail).unhandledRejection = true ∧
    mhas (onConnect ⟨[]⟩ "A" .dynamicFail).state.connections "A" = true :=
  ⟨rfl, rfl, rfl, rfl⟩

/-- C2 as amended: when no dynamic provider is configured the router
synchronously sends the static fallback STUN list; when the dynamic
provider resolves, its list is sent; when it fails, no iceServers
envelope is sent at all and the rejection goes unhandled, although the
connection itself stays accepted and registered. -/
theorem ice_outcomes_of_onConnect
    (st : ServerState) (id : String) (servers : JVal)
    (h : mhas st.connections id = false) :
    outboxOf (onConnect st id .static).state id
      = [helloEnvelope id, staticIceEnvelope] ∧
    outboxOf (onConnect st id (.dynamicOk servers)).state id
      = [helloEnvelope id, dynIceEnvelope servers] ∧
    outboxOf (onConnect st id .dynamicFail).state id = [helloEnvelope id] ∧
    (onConnect st id .dynamicFail).unhandledRejection = true ∧
    (onConnect st id .dynamicFail).accepted = true := by
  refine ⟨?_, ?_, ?_, ?_, ?_⟩ <;>
    simp [onConnect, h, outboxOf, mupdate_mset_self, mget_mset_self]

/-- C2 amended-claim witness: the three provider outcomes on an empty
registry. -/
theorem ice_outcomes_of_onConnect_witness :
    outboxOf (onConnect ⟨[]⟩ "A" .static).state "A"
      = [helloEnvelope "A", staticIceEnvelope] ∧
    outboxOf (onConnect ⟨[]⟩ "A" (.dynamicOk (.arr []))).state "A"
      = [helloEnvelope "A", dynIceEnvelope (.arr [])] ∧
    outboxOf (onConnect ⟨[]⟩ "A" .dynamicFail).state "A" = [helloEnvelope "A"] ∧
    (onConnect ⟨[]⟩ "A" .dynamicFail).unhandledRejection = true ∧
    (onConnect ⟨[]⟩ "A" .dynamicFail).accepted = true :=
  ice_outcomes_of_onConnect ⟨[]⟩ "A" (.arr []) rfl

end SirRtc
